import Mathlib

/-!
Verification of the umkm-tracker location tracking and session lifecycle
engine.  The definitions below are a shallow embedding of the TypeScript
sources:

* `Tracking` embeds `TrackingService` and `TrackingGateway`
  (src/apps/seller/src/tracking/tracking.gateway.ts) and `StoreService`
  (the store service file: setStoreStatus, createWorkSession,
  closeWorkSession).
* `Codec` embeds `SpatialPointTransformer`
  (src/libs/shared/src/entities/spatial.transformer.ts).

Modelling conventions: JavaScript numbers are exact rationals (a JS NaN is
`Option.none` where it can occur); `Date` timestamps are integer epoch
milliseconds; TypeORM repositories are explicit lists inside a `DB` record,
with `findOne`/`save` translated to list lookups and updates; thrown
exceptions are `Except.error` carrying the message.  The transcendental
haversine formula (`Math.sin`, `Math.cos`, `Math.atan2`, `Math.sqrt` over
IEEE doubles) is abstracted as a function parameter `hav`: every claim
about the tracking code is control flow or summation that holds for the
actual haversine function by instantiating `hav`.
-/

namespace Tracking

/-- The `Point` value type of the entities: latitude/longitude pair. -/
structure Point where
  latitude : ℚ
  longitude : ℚ
deriving DecidableEq

/-- One row of the `seller_location_logs` table (`SellerLocationLog`). -/
structure LocationLog where
  sellerId : String
  sessionId : Option ℕ
  recordedAt : ℤ
  location : Point
deriving DecidableEq

/-- One row of the `seller_sessions` table (`SellerSession`). -/
structure SellerSession where
  id : ℕ
  sellerId : String
  startTime : ℤ
  endTime : Option ℤ
  totalDistanceKm : ℚ
deriving DecidableEq

/-- One row of the `sellers` table (the fields the claims need). -/
structure Seller where
  id : String
  userId : String
  isOpen : Bool
deriving DecidableEq

/-- The persisted state: the three repositories plus a counter that stands
for the id generator of new sessions. -/
structure DB where
  sellers : List Seller
  sessions : List SellerSession
  logs : List LocationLog
  nextSessionId : ℕ
deriving DecidableEq

/-- A haversine-distance oracle with the signature of
`TrackingService.haversineDistance (lat1 lng1 lat2 lng2) : km`.  The real
implementation is a fixed transcendental function of the four inputs; the
tracking theorems hold for every choice of it. -/
abbrev Hav := ℚ → ℚ → ℚ → ℚ → ℚ

/-- `TrackingService.MIN_DISTANCE_METERS`. -/
def MIN_DISTANCE_METERS : ℚ := 20

/-- `TrackingService.MIN_TIME_INTERVAL_MS` (2 minutes). -/
def MIN_TIME_INTERVAL_MS : ℤ := 2 * 60 * 1000

/-- `TrackingService.isValidCoordinate`. -/
def isValidCoordinate (latitude longitude : ℚ) : Bool :=
  latitude ≥ -90 && latitude ≤ 90 && longitude ≥ -180 && longitude ≤ 180

/-- `locationLogRepository.findOne (where sellerId, order recordedAt DESC)`:
the most recently recorded log of the seller (first-encountered row on
ties, refining the unspecified database tie-break). -/
def lastLogFor (logs : List LocationLog) (sellerId : String) : Option LocationLog :=
  (logs.filter (fun l => l.sellerId = sellerId)).foldl
    (fun acc l =>
      match acc with
      | none => some l
      | some m => if m.recordedAt < l.recordedAt then some l else some m)
    none

/-- `TrackingService.shouldLogLocation`: accept when more than 2 minutes of
wall-clock time elapsed since the last log, else when the haversine
distance to it exceeds 20 meters. -/
def shouldLogLocation (hav : Hav) (now : ℤ) (lastLocation : LocationLog)
    (newLatitude newLongitude : ℚ) : Bool :=
  let timeDifference := now - lastLocation.recordedAt
  if timeDifference > MIN_TIME_INTERVAL_MS then true
  else
    let distance := hav lastLocation.location.latitude lastLocation.location.longitude
      newLatitude newLongitude
    let distanceInMeters := distance * 1000
    if distanceInMeters > MIN_DISTANCE_METERS then true else false

/-- The error message of the `BadRequestException` thrown by
`logLocationHistory` on out-of-range coordinates. -/
def invalidCoordinatesMsg : String :=
  "Invalid coordinates. Latitude must be between -90 and 90, longitude between -180 and 180"

/-- `TrackingService.logLocationHistory`: validate, load the last log,
apply the sampling policy, and persist the accepted sample.  The result
pairs the returned value (`Except.error` for the thrown exception,
`Option` for log-or-null) with the post-state. -/
def logLocationHistory (hav : Hav) (db : DB) (now : ℤ) (sellerId : String)
    (latitude longitude : ℚ) (sessionId : Option ℕ) :
    Except String (Option LocationLog) × DB :=
  if ¬ isValidCoordinate latitude longitude then
    (.error invalidCoordinatesMsg, db)
  else
    let write :=
      let locationLog : LocationLog :=
        { sellerId := sellerId, sessionId := sessionId, recordedAt := now
          location := { latitude := latitude, longitude := longitude } }
      ((.ok (some locationLog), { db with logs := db.logs ++ [locationLog] }) :
        Except String (Option LocationLog) × DB)
    match lastLogFor db.logs sellerId with
    | some lastLocation =>
        if shouldLogLocation hav now lastLocation latitude longitude then write
        else (.ok none, db)
    | none => write

/-- The chronological order used by `order: recordedAt ASC`. -/
def byRecordedAt (a b : LocationLog) : Prop := a.recordedAt ≤ b.recordedAt

instance : DecidableRel byRecordedAt := fun a b => Int.decLe a.recordedAt b.recordedAt

instance : IsTotal LocationLog byRecordedAt :=
  ⟨fun a b => Int.le_total a.recordedAt b.recordedAt⟩

instance : IsTrans LocationLog byRecordedAt :=
  ⟨fun _ _ _ hab hbc => le_trans hab hbc⟩

/-- `TrackingService.getSessionLocationHistory`: the logs of a session in
chronological (`recordedAt` ascending) order. -/
def getSessionLocationHistory (db : DB) (sessionId : ℕ) : List LocationLog :=
  List.insertionSort byRecordedAt (db.logs.filter (fun l => l.sessionId = some sessionId))

/-- The accumulation loop of `calculateSessionDistance`: sum of the
haversine distances between consecutive logs. -/
def pairSum (hav : Hav) : List LocationLog → ℚ
  | a :: b :: rest =>
      hav a.location.latitude a.location.longitude b.location.latitude b.location.longitude +
        pairSum hav (b :: rest)
  | _ => 0

/-- `TrackingService.calculateSessionDistance`: route distance of the
session logs; when at least two logs exist and the session row is found,
its `totalDistanceKm` is overwritten with the result. -/
def calculateSessionDistance (hav : Hav) (db : DB) (sessionId : ℕ) : ℚ × DB :=
  let locations := getSessionLocationHistory db sessionId
  if locations.length < 2 then (0, db)
  else
    let totalDistance := pairSum hav locations
    match db.sessions.find? (fun s => s.id = sessionId) with
    | some _ =>
        (totalDistance,
          { db with
              sessions := db.sessions.map (fun s =>
                if s.id = sessionId then { s with totalDistanceKm := totalDistance } else s) })
    | none => (totalDistance, db)

/-- Modelled from the spec: `DistanceCalculator.routeDistance` sums the
haversine distance between every consecutive pair of a chronologically
ordered point sequence and returns 0 for sequences of length below 2. -/
def routeDistance (hav : Hav) : List Point → ℚ
  | p :: q :: rest =>
      hav p.latitude p.longitude q.latitude q.longitude + routeDistance hav (q :: rest)
  | _ => 0

/-- `sellerRepository.findOne (where userId)`. -/
def findSellerByUserId (sellers : List Seller) (userId : String) : Option Seller :=
  sellers.find? (fun s => s.userId = userId)

/-- `StoreService.createWorkSession`: insert a fresh session with
`startTime := now`, `endTime := null`, `totalDistanceKm := 0`. -/
def createWorkSession (db : DB) (sellerId : String) (now : ℤ) : DB :=
  { db with
      sessions := db.sessions ++
        [{ id := db.nextSessionId, sellerId := sellerId, startTime := now
           endTime := none, totalDistanceKm := 0 }]
      nextSessionId := db.nextSessionId + 1 }

/-- Is the session an active (`endTime = null`) session of the seller? -/
def isActiveFor (sellerId : String) (s : SellerSession) : Bool :=
  s.sellerId = sellerId ∧ s.endTime = none

/-- `sessionRepository.findOne (where sellerId, endTime null, order
startTime DESC)`, returning the index together with the row (earliest
matching row on ties, refining the unspecified database tie-break). -/
def findActive (sellerId : String) : List SellerSession → Option (ℕ × SellerSession)
  | [] => none
  | s :: rest =>
    match findActive sellerId rest with
    | none => if isActiveFor sellerId s then some (0, s) else none
    | some jm =>
        if isActiveFor sellerId s then
          if jm.2.startTime > s.startTime then some (jm.1 + 1, jm.2) else some (0, s)
        else some (jm.1 + 1, jm.2)

/-- `StoreService.closeWorkSession`: set `endTime := now` on the newest
active session of the seller; benign no-op when none exists. -/
def closeWorkSession (db : DB) (sellerId : String) (now : ℤ) : DB :=
  match findActive sellerId db.sessions with
  | none => db
  | some im =>
      { db with sessions := db.sessions.set im.1 { im.2 with endTime := some now } }

/-- `StoreService.setStoreStatus`: look the seller up by user id
(`NotFoundException` when absent), clock in or out, then persist the
`isOpen` flag. -/
def setStoreStatus (db : DB) (userId : String) (isOpen : Bool) (now : ℤ) :
    Except String DB :=
  match findSellerByUserId db.sellers userId with
  | none => .error "Store profile not found"
  | some seller =>
      let db1 := if isOpen then createWorkSession db seller.id now
        else closeWorkSession db seller.id now
      .ok { db1 with
              sellers := db1.sellers.map (fun s =>
                if s.id = seller.id then { s with isOpen := isOpen } else s) }

/-- The number of active (`endTime = null`) sessions of a seller. -/
def countOpen (db : DB) (sellerId : String) : ℕ :=
  db.sessions.countP (isActiveFor sellerId)

/-- Run a list of storefront status changes `(isOpen, time)` through
`setStoreStatus`; a thrown `NotFoundException` leaves the state unchanged. -/
def runOps (userId : String) : DB → List (Bool × ℤ) → DB
  | db, [] => db
  | db, (b, t) :: rest =>
      runOps userId
        (match setStoreStatus db userId b t with
         | .ok db1 => db1
         | .error _ => db) rest

/-- No two consecutive operations have the same direction; `prev` is the
direction of the operation immediately before the list, if any. -/
def Alternating : Option Bool → List (Bool × ℤ) → Prop
  | _, [] => True
  | prev, (b, _) :: rest => prev ≠ some b ∧ Alternating (some b) rest

/-- State of `TrackingGateway`: the `connectedSellers` map (as an
insertion-ordered association list, the semantics of a JS `Map`) plus the
collection of sockets on which `disconnect()` has been called. -/
structure Registry where
  connectedSellers : List (String × ℕ)
  disconnected : List ℕ
deriving DecidableEq

/-- JS `Map.get`. -/
def mapGet (m : List (String × ℕ)) (k : String) : Option ℕ :=
  (m.find? (fun p => p.1 = k)).map (·.2)

/-- JS `Map.set`: replace in place when the key exists, else append. -/
def mapSet (m : List (String × ℕ)) (k : String) (v : ℕ) : List (String × ℕ) :=
  if m.any (fun p => p.1 = k) then m.map (fun p => if p.1 = k then (k, v) else p)
  else m ++ [(k, v)]

/-- The teardown half of `TrackingGateway.handleRegister`: when the seller
already has a live socket, `disconnect()` is called on it. -/
def teardownExisting (st : Registry) (sellerId : String) : Registry :=
  match mapGet st.connectedSellers sellerId with
  | some sock => { st with disconnected := st.disconnected ++ [sock] }
  | none => st

/-- The install half of `TrackingGateway.handleRegister`:
`connectedSellers.set(sellerId, client)`. -/
def installChannel (st : Registry) (sellerId : String) (sock : ℕ) : Registry :=
  { st with connectedSellers := mapSet st.connectedSellers sellerId sock }

/-- `TrackingGateway.handleRegister`: reject a falsy seller id, tear the
previous channel down, then install the new one. -/
def handleRegister (st : Registry) (sellerId : String) (sock : ℕ) :
    Except String Registry :=
  if sellerId = "" then .error "Invalid sellerId"
  else .ok (installChannel (teardownExisting st sellerId) sellerId sock)

/-- The map surgery of `TrackingGateway.handleDisconnect`: delete the first
entry whose socket matches (the loop breaks after one deletion). -/
def removeBySocket : List (String × ℕ) → ℕ → List (String × ℕ)
  | [], _ => []
  | p :: rest, sock => if p.2 = sock then rest else p :: removeBySocket rest sock

/-- `TrackingGateway.handleDisconnect`: remove the seller entry by socket
identity. -/
def handleDisconnect (st : Registry) (sock : ℕ) : Registry :=
  { st with connectedSellers := removeBySocket st.connectedSellers sock }

end Tracking

namespace Codec

/-- A JS number that may be `NaN` (`none`); finite values are exact
rationals, and the infinities are folded into `none` where they can only
flow into a rejection (see `decodeF64`). -/
abbrev JSNum := Option ℚ

/-- The `Point` interface of spatial.transformer.ts; its fields are plain
JS numbers, so `NaN` is representable. -/
structure WPoint where
  latitude : JSNum
  longitude : JSNum
deriving DecidableEq

/-- A value coming back from the spatial column: `null`/`undefined`, a
`Buffer` (list of bytes), or a string. -/
inductive DbValue
  | nullish
  | buffer (bytes : List ℕ)
  | text (s : String)
deriving DecidableEq

/-- The characters matched by the `\s` class of the WKT regex (the common
JS whitespace characters; the only one reachable from this codebase is the
plain space). -/
def isWs (c : Char) : Bool :=
  c = ' ' ∨ c = '\t' ∨ c = '\n' ∨ c = '\r' ∨ c = '\x0b' ∨ c = '\x0c'

/-- The characters matched by the `[-\d.]` class of the WKT regex. -/
def isClassChar (c : Char) : Bool :=
  c = '-' ∨ c.isDigit ∨ c = '.'

/-- Match the regex `POINT\s*\(\s*([-\d.]+)\s+([-\d.]+)\s*\)` (flag `i`) at
the head of the character list.  Greedy matching of `[-\d.]+` and `\s+`
needs no backtracking here because the two classes are disjoint and
exclude the closing parenthesis, so maximal munch is exact. -/
def matchAt (cs : List Char) : Option (List Char × List Char) :=
  match cs with
  | p :: o :: i :: n :: t :: rest =>
    if p.toLower = 'p' ∧ o.toLower = 'o' ∧ i.toLower = 'i' ∧ n.toLower = 'n' ∧
        t.toLower = 't' then
      match rest.dropWhile isWs with
      | c :: r1 =>
        if c = '(' then
          let r2 := r1.dropWhile isWs
          let g1 := r2.takeWhile isClassChar
          let r3 := r2.dropWhile isClassChar
          if g1.isEmpty then none
          else
            let w := r3.takeWhile isWs
            let r4 := r3.dropWhile isWs
            if w.isEmpty then none
            else
              let g2 := r4.takeWhile isClassChar
              let r5 := r4.dropWhile isClassChar
              if g2.isEmpty then none
              else
                match r5.dropWhile isWs with
                | c2 :: _ => if c2 = ')' then some (g1, g2) else none
                | [] => none
        else none
      | [] => none
    else none
  | _ => none

/-- `String.prototype.match`: scan left to right for the first position
where the pattern matches. -/
def scanMatch : List Char → Option (List Char × List Char)
  | [] => none
  | c :: rest =>
    match matchAt (c :: rest) with
    | some r => some r
    | none => scanMatch rest

/-- The regex match of `SpatialPointTransformer.from` on a string value. -/
def wktMatch (s : String) : Option (List Char × List Char) :=
  scanMatch s.data

/-- JS `parseFloat` restricted to the strings reachable here (regex groups
over `[-\d.]`, and well-formed numerals): optional sign, integer digits,
optional fraction; trailing junk is ignored; `none` is `NaN`.  The
exponent suffix of full `parseFloat` is unreachable because `e` is outside
the `[-\d.]` group class. -/
def parseChars (cs : List Char) : Option ℚ :=
  let cs1 := cs.dropWhile isWs
  let signed : Bool × List Char :=
    match cs1 with
    | c :: r => if c = '-' then (true, r) else if c = '+' then (false, r) else (false, cs1)
    | [] => (false, cs1)
  let ds := signed.2.takeWhile Char.isDigit
  let r1 := signed.2.dropWhile Char.isDigit
  let mk : List Char → List Char → ℚ := fun intCs fracCs =>
    (if signed.1 then -1 else 1) *
      (((intCs.foldl (fun a c => 10 * a + (c.toNat - 48)) 0 : ℕ) : ℚ) +
        fracCs.foldr (fun c acc => (((c.toNat - 48 : ℕ) : ℚ) + acc) / 10) (0 : ℚ))
  let hasDot : Bool :=
    match r1 with
    | c :: _ => c = '.'
    | [] => false
  if hasDot then
    let fs := r1.tail.takeWhile Char.isDigit
    if ds.isEmpty ∧ fs.isEmpty then none else some (mk ds fs)
  else if ds.isEmpty then none else some (mk ds [])

/-- JS `parseFloat` on a string. -/
def jsParseFloat (s : String) : JSNum :=
  parseChars s.data

/-- The digit character of a decimal digit. -/
def digitChar (d : ℕ) : Char := Char.ofNat (48 + d)

/-- Decimal digits of a natural number, most significant first. -/
def natDigits (n : ℕ) : List ℕ :=
  (Nat.toDigits 10 n).map (fun c => c.toNat - 48)

/-- Fraction digits of a rational in `[0, 1)`: repeatedly multiply by ten
and emit the integer part; `fuel` bounds the expansion (JS doubles always
terminate well inside it). -/
def fracDigitsChars : ℕ → ℚ → List Char
  | 0, _ => []
  | fuel + 1, f =>
    if f ≤ 0 then []
    else
      let d := (f * 10).floor
      digitChar d.toNat :: fracDigitsChars fuel (f * 10 - (d : ℚ))

/-- Plain decimal rendering of a positive rational, as ECMAScript
`Number::toString` produces for values in the plain-decimal range. -/
def plainRender (a : ℚ) : List Char :=
  let ip := a.floor.toNat
  let fr := a - (a.floor : ℚ)
  (Nat.toDigits 10 ip) ++ (if fr = 0 then [] else '.' :: fracDigitsChars 1200 fr)

/-- The decimal exponent `k ≥ 1` with `10 ^ (-k) ≤ a < 10 ^ (-k + 1)`, for
`0 < a < 1`; fuel-bounded search. -/
def negExp (a : ℚ) : ℕ :=
  go 1200 1
where
  go : ℕ → ℕ → ℕ
    | 0, k => k
    | fuel + 1, k => if 1 ≤ a * 10 ^ k then k else go fuel (k + 1)

/-- The decimal exponent `k` with `10 ^ k ≤ a < 10 ^ (k + 1)`, for
`a ≥ 1`; fuel-bounded search. -/
def posExp (a : ℚ) : ℕ :=
  go 1200 0
where
  go : ℕ → ℕ → ℕ
    | 0, k => k
    | fuel + 1, k => if a < 10 ^ (k + 1) then k else go fuel (k + 1)

/-- Exponent-notation rendering (`d.ddde-k` / `d.ddde+k`) of a positive
rational, as ECMAScript `Number::toString` produces outside the
plain-decimal range. -/
def expRender (a : ℚ) : List Char :=
  if a < 1 then
    let k := negExp a
    let m := a * 10 ^ k
    let d0 := m.floor
    let fr := m - (d0 : ℚ)
    (Nat.toDigits 10 d0.toNat) ++ (if fr = 0 then [] else '.' :: fracDigitsChars 1200 fr) ++
      ('e' :: '-' :: Nat.toDigits 10 k)
  else
    let k := posExp a
    let m := a / 10 ^ k
    let d0 := m.floor
    let fr := m - (d0 : ℚ)
    (Nat.toDigits 10 d0.toNat) ++ (if fr = 0 then [] else '.' :: fracDigitsChars 1200 fr) ++
      ('e' :: '+' :: Nat.toDigits 10 k)

/-- ECMAScript `Number::toString` (the implicit conversion used by the
template literal in `SpatialPointTransformer.to`), modelled for exact
rationals: zero renders as `0`; nonzero values of magnitude below `1e-6`
or at least `1e21` render in exponent notation, all others in plain
decimal notation; `NaN` renders as `NaN`. -/
def jsNumToString : JSNum → List Char
  | none => ['N', 'a', 'N']
  | some q =>
    if q = 0 then ['0']
    else
      let sign : List Char := if q < 0 then ['-'] else []
      let a := |q|
      if a < 1 / 1000000 ∨ 10 ^ 21 ≤ a then sign ++ expRender a
      else sign ++ plainRender a

/-- `SpatialPointTransformer.to`: render the WKT text
`POINT(longitude latitude)`. -/
def spatialTo : Option WPoint → Option String
  | none => none
  | some w =>
    some ⟨('P' :: 'O' :: 'I' :: 'N' :: 'T' :: '(' :: []) ++ jsNumToString w.longitude ++
      (' ' :: []) ++ jsNumToString w.latitude ++ (')' :: [])⟩

/-- Little-endian read of the 8 bytes at `off` (Node
`Buffer.readDoubleLE`), as the raw 64-bit word. -/
def readLE8 (bytes : List ℕ) (off : ℕ) : ℕ :=
  ((bytes.drop off).take 8).reverse.foldl (fun a b => a * 256 + b) 0

/-- Interpretation of a 64-bit word as an IEEE-754 double: `none` for the
non-finite encodings (NaN and the infinities, all of which the transformer
rejects — NaN through `isNaN`, the infinities through the range check),
the exact rational value otherwise. -/
def decodeF64 (bits : ℕ) : Option ℚ :=
  let sign : ℕ := bits / 2 ^ 63 % 2
  let expo : ℕ := bits / 2 ^ 52 % 2 ^ 11
  let frac : ℕ := bits % 2 ^ 52
  if expo = 2047 then none
  else
    let mag : ℚ :=
      if expo = 0 then (frac : ℚ) / 2 ^ 1074
      else ((2 ^ 52 + frac : ℕ) : ℚ) * 2 ^ expo / 2 ^ 1075
    some ((if sign = 1 then -1 else 1) * mag)

/-- `SpatialPointTransformer.parseWKBPoint`: reject buffers shorter than 25
bytes, reject a byte-order flag other than `0x01`, read the two
little-endian doubles at offsets 9 and 17, and reject NaN or out-of-range
coordinates. -/
def parseWKBPoint (bytes : List ℕ) : Option WPoint :=
  if bytes.length < 25 then none
  else if bytes.getD 0 0 ≠ 1 then none
  else
    match decodeF64 (readLE8 bytes 9), decodeF64 (readLE8 bytes 17) with
    | some longitude, some latitude =>
      if longitude < -180 ∨ longitude > 180 ∨ latitude < -90 ∨ latitude > 90 then none
      else some { latitude := some latitude, longitude := some longitude }
    | _, _ => none

/-- `SpatialPointTransformer.from`: `null`/`undefined` and parse failures
yield `undefined`; a buffer goes through `parseWKBPoint`; a string goes
through the WKT regex, its groups through `parseFloat`. -/
def spatialFrom : DbValue → Option WPoint
  | .nullish => none
  | .buffer bytes => parseWKBPoint bytes
  | .text s =>
    match wktMatch s with
    | some g => some { latitude := parseChars g.2, longitude := parseChars g.1 }
    | none => none

/-- The round trip of the spec: decode the encoded form. -/
def decodeEncode (p : WPoint) : Option WPoint :=
  match spatialTo (some p) with
  | some s => spatialFrom (.text s)
  | none => none

/-- A finite decimal numeral: sign, integer digits, fraction digits.
Every JS double whose `Number::toString` rendering is in plain decimal
notation is described by one (the rendering digits themselves). -/
structure DecNum where
  neg : Bool
  intDigits : List ℕ
  fracDigits : List ℕ

/-- The characters of the numeral. -/
def DecNum.renderChars (d : DecNum) : List Char :=
  (if d.neg then ['-'] else []) ++ d.intDigits.map digitChar ++
    (match d.fracDigits with
     | [] => []
     | fs => '.' :: fs.map digitChar)

/-- The rational value of the numeral. -/
def DecNum.val (d : DecNum) : ℚ :=
  (if d.neg then -1 else 1) *
    (((d.intDigits.foldl (fun a x => 10 * a + x) 0 : ℕ) : ℚ) +
      d.fracDigits.foldr (fun (x : ℕ) (acc : ℚ) => ((x : ℚ) + acc) / 10) (0 : ℚ))

/-- Well-formedness: decimal digits only, and a nonempty integer part (as
`Number::toString` always emits one). -/
def DecNum.WF (d : DecNum) : Prop :=
  (∀ x ∈ d.intDigits, x < 10) ∧ (∀ x ∈ d.fracDigits, x < 10) ∧ d.intDigits ≠ []

end Codec

open Tracking Codec

/-- The sampling predicate accepts exactly when more than 2 minutes
elapsed or the haversine distance exceeds 20 meters. -/
theorem shouldLogLocation_eq_true_iff (hav : Hav) (now : ℤ) (lastLocation : LocationLog)
    (latitude longitude : ℚ) :
    shouldLogLocation hav now lastLocation latitude longitude = true ↔
      (now - lastLocation.recordedAt > MIN_TIME_INTERVAL_MS ∨
        hav lastLocation.location.latitude lastLocation.location.longitude latitude longitude
          * 1000 > MIN_DISTANCE_METERS) := by
  unfold shouldLogLocation
  dsimp only
  split_ifs with h1 h2
  · simp [h1]
  · simp [h1, h2]
  · simp [h1, h2]

/-- C1: with in-range coordinates, an ingest call with no previously
persisted log is always accepted and persisted; with a last log present it
is accepted iff more than 2 minutes of wall-clock time elapsed since it or
the haversine distance from it exceeds 20 meters, and otherwise the call
returns null and writes nothing. -/
theorem C1_sampling_policy (hav : Hav) (db : DB) (now : ℤ) (sellerId : String)
    (latitude longitude : ℚ) (sessionId : Option ℕ)
    (hvalid : isValidCoordinate latitude longitude = true) :
    (lastLogFor db.logs sellerId = none →
      logLocationHistory hav db now sellerId latitude longitude sessionId =
        (.ok (some ⟨sellerId, sessionId, now, ⟨latitude, longitude⟩⟩),
          { db with logs := db.logs ++ [⟨sellerId, sessionId, now, ⟨latitude, longitude⟩⟩] })) ∧
    (∀ lastLocation, lastLogFor db.logs sellerId = some lastLocation →
      ((now - lastLocation.recordedAt > MIN_TIME_INTERVAL_MS ∨
          hav lastLocation.location.latitude lastLocation.location.longitude latitude longitude
            * 1000 > MIN_DISTANCE_METERS) →
        logLocationHistory hav db now sellerId latitude longitude sessionId =
          (.ok (some ⟨sellerId, sessionId, now, ⟨latitude, longitude⟩⟩),
            { db with logs := db.logs ++ [⟨sellerId, sessionId, now, ⟨latitude, longitude⟩⟩] })) ∧
      (¬ (now - lastLocation.recordedAt > MIN_TIME_INTERVAL_MS ∨
          hav lastLocation.location.latitude lastLocation.location.longitude latitude longitude
            * 1000 > MIN_DISTANCE_METERS) →
        logLocationHistory hav db now sellerId latitude longitude sessionId =
          (.ok none, db))) := by
  refine ⟨fun hnone => ?_, fun lastLocation hsome => ⟨fun hacc => ?_, fun hskip => ?_⟩⟩
  · simp [logLocationHistory, hvalid, hnone]
  · have hs : shouldLogLocation hav now lastLocation latitude longitude = true :=
      (shouldLogLocation_eq_true_iff hav now lastLocation latitude longitude).mpr hacc
    simp only [logLocationHistory, hvalid, hsome]
    simp [hs]
  · have hs : shouldLogLocation hav now lastLocation latitude longitude = false := by
      rcases hb : shouldLogLocation hav now lastLocation latitude longitude with _ | _
      · rfl
      · exact absurd ((shouldLogLocation_eq_true_iff hav now lastLocation latitude
          longitude).mp hb) hskip
    simp only [logLocationHistory, hvalid, hsome]
    simp [hs]

/-- Witness for C1 at a concrete input: empty database, valid
coordinates, sample accepted and persisted. -/
theorem C1_sampling_policy_witness :
    isValidCoordinate 1 2 = true ∧
      logLocationHistory (fun _ _ _ _ => 0) ⟨[], [], [], 0⟩ 5 "a" 1 2 none =
        (.ok (some ⟨"a", none, 5, ⟨1, 2⟩⟩), ⟨[], [], [⟨"a", none, 5, ⟨1, 2⟩⟩], 0⟩) :=
  ⟨by with_unfolding_all rfl,
    (C1_sampling_policy (fun _ _ _ _ => 0) ⟨[], [], [], 0⟩ 5 "a" 1 2 none
      (by with_unfolding_all rfl)).1 (by with_unfolding_all rfl)⟩

/-- C4: an ingest call with an out-of-range coordinate throws the
descriptive `BadRequestException` and leaves the store untouched. -/
theorem C4_invalid_coordinates (hav : Hav) (db : DB) (now : ℤ) (sellerId : String)
    (latitude longitude : ℚ) (sessionId : Option ℕ)
    (h : latitude < -90 ∨ latitude > 90 ∨ longitude < -180 ∨ longitude > 180) :
    logLocationHistory hav db now sellerId latitude longitude sessionId =
      (.error invalidCoordinatesMsg, db) := by
  have hv : isValidCoordinate latitude longitude = false := by
    rcases hb : isValidCoordinate latitude longitude with _ | _
    · rfl
    · exfalso
      simp only [isValidCoordinate, Bool.and_eq_true, decide_eq_true_eq, ge_iff_le] at hb
      rcases h with h | h | h | h <;> linarith [hb.1.1.1, hb.1.1.2, hb.1.2, hb.2]
  simp [logLocationHistory, hv]

/-- Witness for C4 at the spec scenario `{lat: 200, lng: 20}`. -/
theorem C4_invalid_coordinates_witness :
    ((200 : ℚ) > 90) ∧
      logLocationHistory (fun _ _ _ _ => 0) ⟨[], [], [], 0⟩ 0 "a" 200 20 none =
        (.error invalidCoordinatesMsg, ⟨[], [], [], 0⟩) :=
  ⟨by norm_num,
    C4_invalid_coordinates (fun _ _ _ _ => 0) ⟨[], [], [], 0⟩ 0 "a" 200 20 none
      (Or.inr (Or.inl (by norm_num)))⟩

/-- The accumulation loop over logs equals the spec route distance over
the corresponding point sequence. -/
theorem pairSum_eq_routeDistance (hav : Hav) :
    ∀ l : List LocationLog, pairSum hav l = routeDistance hav (l.map (·.location))
  | [] => rfl
  | [_] => rfl
  | a :: b :: rest => by
    show hav _ _ _ _ + pairSum hav (b :: rest) = _
    rw [pairSum_eq_routeDistance hav (b :: rest)]
    rfl

/-- Unfolding characterization of `calculateSessionDistance`. -/
theorem calculateSessionDistance_eq (hav : Hav) (db : DB) (sessionId : ℕ) :
    calculateSessionDistance hav db sessionId =
      (if (getSessionLocationHistory db sessionId).length < 2 then ((0 : ℚ), db)
       else
        match db.sessions.find? (fun s => s.id = sessionId) with
        | some _ =>
          (pairSum hav (getSessionLocationHistory db sessionId),
            { db with
                sessions := db.sessions.map (fun s =>
                  if s.id = sessionId then
                    { s with
                        totalDistanceKm := pairSum hav (getSessionLocationHistory db sessionId) }
                  else s) })
        | none => (pairSum hav (getSessionLocationHistory db sessionId), db)) := rfl

/-- A list shorter than two elements has route distance zero. -/
theorem routeDistance_short (hav : Hav) (l : List Tracking.Point) (h : l.length < 2) :
    routeDistance hav l = 0 := by
  match l with
  | [] => rfl
  | [_] => rfl
  | _ :: _ :: _ => simp at h; omega

/-- C10: for a session id with no session row, the distance query raises
no not-found error, returns the route distance over the logs carrying that
session id, and writes nothing. -/
theorem C10_missing_session (hav : Hav) (db : DB) (sessionId : ℕ)
    (h : db.sessions.find? (fun s => s.id = sessionId) = none) :
    calculateSessionDistance hav db sessionId =
      (routeDistance hav ((getSessionLocationHistory db sessionId).map (·.location)), db) := by
  rw [calculateSessionDistance_eq, h]
  split_ifs with hlen
  · rw [routeDistance_short hav _ (by simpa using hlen)]
  · rw [pairSum_eq_routeDistance]

/-- Witness for C10 on the empty database. -/
theorem C10_missing_session_witness :
    (([] : List SellerSession).find? (fun s => s.id = 0) = none) ∧
      calculateSessionDistance (fun _ _ _ _ => 0) ⟨[], [], [], 0⟩ 0 =
        (routeDistance (fun _ _ _ _ => 0) [], ⟨[], [], [], 0⟩) :=
  ⟨rfl, C10_missing_session (fun _ _ _ _ => 0) ⟨[], [], [], 0⟩ 0 rfl⟩

/-- C6: the distance query returns 0 (and writes nothing) below two logs;
otherwise it returns the sum of the haversine distances between
consecutive logs taken in chronological (`recordedAt` ascending) order —
the session log list is sorted chronologically and is a permutation of
the stored logs of the session — and the session row, when present, gets
that result written into `totalDistanceKm`.  The haversine formula itself
(Earth radius 6371 km over IEEE doubles) is the `hav` parameter. -/
theorem C6_session_distance (hav : Hav) (db : DB) (sessionId : ℕ) :
    ((getSessionLocationHistory db sessionId).length < 2 →
      calculateSessionDistance hav db sessionId = (0, db)) ∧
    (calculateSessionDistance hav db sessionId).1 =
      routeDistance hav ((getSessionLocationHistory db sessionId).map (·.location)) ∧
    List.Sorted byRecordedAt (getSessionLocationHistory db sessionId) ∧
    (getSessionLocationHistory db sessionId).Perm
      (db.logs.filter (fun l => l.sessionId = some sessionId)) ∧
    (2 ≤ (getSessionLocationHistory db sessionId).length →
      ∀ s ∈ (calculateSessionDistance hav db sessionId).2.sessions, s.id = sessionId →
        s.totalDistanceKm = (calculateSessionDistance hav db sessionId).1) := by
  refine ⟨fun hshort => ?_, ?_, ?_, ?_, fun hlong s hs hid => ?_⟩
  · rw [calculateSessionDistance_eq, if_pos hshort]
  · rw [calculateSessionDistance_eq]
    split_ifs with hlen
    · rw [routeDistance_short hav _ (by simpa using hlen)]
    · rcases hf : db.sessions.find? (fun s => s.id = sessionId) with _ | s
      · rw [hf, pairSum_eq_routeDistance]
      · rw [hf, pairSum_eq_routeDistance]
  · exact List.sorted_insertionSort byRecordedAt _
  · exact List.perm_insertionSort byRecordedAt _
  · rw [calculateSessionDistance_eq, if_neg (by omega)] at hs ⊢
    rcases hf : db.sessions.find? (fun t => t.id = sessionId) with _ | t
    · rw [hf] at hs
      exact absurd (by simpa using List.find?_eq_none.mp hf s hs) (by simpa using hid)
    · rw [hf] at hs ⊢
      simp only [List.mem_map] at hs
      obtain ⟨u, _, hu⟩ := hs
      by_cases hc : u.id = sessionId
      · rw [← hu]
        simp [hc]
      · rw [← hu] at hid
        simp [hc] at hid

/-- Witness for C6 on a concrete single-log session: fewer than two logs,
distance 0, nothing written. -/
theorem C6_session_distance_witness :
    ((getSessionLocationHistory ⟨[], [], [⟨"a", some 0, 5, ⟨1, 2⟩⟩], 0⟩ 0).length < 2) ∧
      calculateSessionDistance (fun _ _ _ _ => 0) ⟨[], [], [⟨"a", some 0, 5, ⟨1, 2⟩⟩], 0⟩ 0 =
        (0, ⟨[], [], [⟨"a", some 0, 5, ⟨1, 2⟩⟩], 0⟩) :=
  ⟨by with_unfolding_all decide,
    (C6_session_distance (fun _ _ _ _ => 0) ⟨[], [], [⟨"a", some 0, 5, ⟨1, 2⟩⟩], 0⟩ 0).1
      (by with_unfolding_all decide)⟩

/-- When `findActive` finds nothing, no session of the seller is active. -/
theorem findActive_eq_none (sid : String) :
    ∀ l : List SellerSession, findActive sid l = none →
      ∀ s ∈ l, isActiveFor sid s = false
  | [], _, s, hs => by simp at hs
  | a :: rest, h, t, ht => by
    rw [findActive] at h
    rcases hr : findActive sid rest with _ | jm <;> simp only [hr] at h
    · by_cases ha : isActiveFor sid a = true
      · rw [if_pos ha] at h
        simp at h
      · have ha' : isActiveFor sid a = false := by simpa using ha
        rcases List.mem_cons.mp ht with rfl | hmem
        · exact ha'
        · exact findActive_eq_none sid rest hr t hmem
    · by_cases ha : isActiveFor sid a = true
      · rw [if_pos ha] at h
        by_cases hlt : jm.2.startTime > a.startTime
        · rw [if_pos hlt] at h
          simp at h
        · rw [if_neg hlt] at h
          simp at h
      · rw [if_neg ha] at h
        simp at h

/-- What `findActive` returns: the indexed row, which is an active session
of the seller with maximal `startTime` among them. -/
theorem findActive_some (sid : String) :
    ∀ (l : List SellerSession) (i : ℕ) (s : SellerSession),
      findActive sid l = some (i, s) →
      l.get? i = some s ∧ isActiveFor sid s = true ∧
        ∀ t ∈ l, isActiveFor sid t = true → t.startTime ≤ s.startTime
  | [], i, s => by simp [findActive]
  | a :: rest, i, s => by
    intro h
    rw [findActive] at h
    rcases hr : findActive sid rest with _ | jm <;> simp only [hr] at h
    · by_cases ha : isActiveFor sid a = true
      · rw [if_pos ha] at h
        simp only [Option.some.injEq, Prod.mk.injEq] at h
        obtain ⟨rfl, rfl⟩ := h
        refine ⟨rfl, ha, fun t ht hact => ?_⟩
        rcases List.mem_cons.mp ht with rfl | hmem
        · exact le_refl _
        · exact absurd hact (by simp [findActive_eq_none sid rest hr t hmem])
      · rw [if_neg ha] at h
        simp at h
    · obtain ⟨hget, hact, hmax⟩ := findActive_some sid rest jm.1 jm.2 (by rw [hr])
      by_cases ha : isActiveFor sid a = true
      · rw [if_pos ha] at h
        by_cases hlt : jm.2.startTime > a.startTime
        · rw [if_pos hlt] at h
          simp only [Option.some.injEq, Prod.mk.injEq] at h
          obtain ⟨rfl, rfl⟩ := h
          refine ⟨by simpa using hget, hact, fun t ht htact => ?_⟩
          rcases List.mem_cons.mp ht with rfl | hmem
          · exact le_of_lt hlt
          · exact hmax t hmem htact
        · rw [if_neg hlt] at h
          simp only [Option.some.injEq, Prod.mk.injEq] at h
          obtain ⟨rfl, rfl⟩ := h
          refine ⟨rfl, ha, fun t ht htact => ?_⟩
          rcases List.mem_cons.mp ht with rfl | hmem
          · exact le_refl _
          · exact le_trans (hmax t hmem htact) (by omega)
      · rw [if_neg ha] at h
        simp only [Option.some.injEq, Prod.mk.injEq] at h
        obtain ⟨rfl, rfl⟩ := h
        refine ⟨by simpa using hget, hact, fun t ht htact => ?_⟩
        rcases List.mem_cons.mp ht with rfl | hmem
        · exact absurd htact (by simpa using ha)
        · exact hmax t hmem htact

/-- Replacing a counted element by an uncounted one drops `countP` by one. -/
theorem countP_set_succ (p : SellerSession → Bool) :
    ∀ (l : List SellerSession) (i : ℕ) (a b : SellerSession),
      l.get? i = some a → p a = true → p b = false →
      (l.set i b).countP p + 1 = l.countP p
  | [], i, a, b => by simp
  | x :: rest, 0, a, b => by
    intro hget hpa hpb
    obtain rfl : x = a := by simpa using hget
    simp [List.countP_cons, hpa, hpb]
  | x :: rest, i + 1, a, b => by
    intro hget hpa hpb
    have ih := countP_set_succ p rest i a b (by simpa using hget) hpa hpb
    simp only [List.set, List.countP_cons]
    omega

/-- Closing a work session decrements the number of active sessions of the
seller (truncated at zero). -/
theorem countOpen_closeWorkSession (db : DB) (sid : String) (now : ℤ) :
    countOpen (closeWorkSession db sid now) sid = countOpen db sid - 1 := by
  unfold closeWorkSession
  rcases hf : findActive sid db.sessions with _ | im
  · dsimp only
    have h0 : countOpen db sid = 0 := by
      unfold countOpen
      rw [List.countP_eq_zero]
      intro a ha
      simp [findActive_eq_none sid db.sessions hf a ha]
    rw [h0]
  · dsimp only
    obtain ⟨hget, hact, _⟩ := findActive_some sid db.sessions im.1 im.2 (by rw [hf])
    have hpb : isActiveFor sid { im.2 with endTime := some now } = false := by
      simp [isActiveFor]
    have hstep := countP_set_succ (isActiveFor sid) db.sessions im.1 im.2 _ hget hact hpb
    unfold countOpen
    dsimp only
    exact Nat.eq_sub_of_add_eq hstep

/-- Opening a work session adds one active session for that seller. -/
theorem countOpen_createWorkSession (db : DB) (sid : String) (now : ℤ) :
    countOpen (createWorkSession db sid now) sid = countOpen db sid + 1 := by
  unfold countOpen createWorkSession
  simp [List.countP_append, isActiveFor]

/-- Closing a session never touches the sellers table. -/
theorem closeWorkSession_sellers (db : DB) (sid : String) (now : ℤ) :
    (closeWorkSession db sid now).sellers = db.sellers := by
  unfold closeWorkSession
  rcases hf : findActive sid db.sessions with _ | im <;> rfl

/-- Closing a session never touches the location logs. -/
theorem closeWorkSession_logs (db : DB) (sid : String) (now : ℤ) :
    (closeWorkSession db sid now).logs = db.logs := by
  unfold closeWorkSession
  rcases hf : findActive sid db.sessions with _ | im <;> rfl

/-- What one successful `setStoreStatus` call does to the state: the
`isOpen` flag of the seller is persisted, the session table is the one
produced by the clock-in/clock-out, the logs are untouched, and the number
of active sessions of the seller moves up by one (open) or down by one
(close). -/
theorem setStoreStatus_ok_parts (db : DB) (userId : String) (b : Bool) (now : ℤ)
    (seller : Seller) (hfind : findSellerByUserId db.sellers userId = some seller) :
    ∃ db', setStoreStatus db userId b now = .ok db' ∧
      db'.sellers = db.sellers.map (fun s =>
        if s.id = seller.id then { s with isOpen := b } else s) ∧
      db'.sessions = (if b then createWorkSession db seller.id now
        else closeWorkSession db seller.id now).sessions ∧
      db'.logs = db.logs ∧
      countOpen db' seller.id =
        (if b then countOpen db seller.id + 1 else countOpen db seller.id - 1) := by
  cases b
  · simp only [Bool.false_eq_true, if_false]
    unfold setStoreStatus
    rw [hfind]
    simp only [Bool.false_eq_true, if_false]
    refine ⟨_, rfl, ?_, rfl, ?_, ?_⟩
    · rw [closeWorkSession_sellers]
    · show (closeWorkSession db seller.id now).logs = db.logs
      exact closeWorkSession_logs db seller.id now
    · show countOpen (closeWorkSession db seller.id now) seller.id = _
      exact countOpen_closeWorkSession db seller.id now
  · simp only [if_true]
    unfold setStoreStatus
    rw [hfind]
    simp only [if_true]
    refine ⟨_, rfl, rfl, rfl, rfl, ?_⟩
    show countOpen (createWorkSession db seller.id now) seller.id = _
    exact countOpen_createWorkSession db seller.id now

/-- When the user has no seller profile, every status change throws and
the run leaves the state unchanged. -/
theorem runOps_no_seller (userId : String) :
    ∀ (ops : List (Bool × ℤ)) (db : DB),
      findSellerByUserId db.sellers userId = none → runOps userId db ops = db
  | [], db, _ => rfl
  | (b, t) :: rest, db, hfind => by
    have herr : setStoreStatus db userId b t = .error "Store profile not found" := by
      unfold setStoreStatus
      rw [hfind]
    simp only [runOps, herr]
    exact runOps_no_seller userId rest db hfind

/-- Counterexample to C2 as stated: the open/close sequence
`[open, open]` (the storefront status endpoint does not check the current
status, and clock-in unconditionally inserts a fresh session) leaves two
sessions of the seller with `endTime = null`. -/
theorem C2_counterexample :
    (match setStoreStatus ⟨[⟨"s1", "u1", false⟩], [], [], 0⟩ "u1" true 100 with
     | .ok db1 =>
       match setStoreStatus db1 "u1" true 200 with
       | .ok db2 => countOpen db2 "s1"
       | .error _ => 0
     | .error _ => 0) = 2 := by with_unfolding_all rfl

/-- C2 (amended): after any alternating sequence of storefront open/close
operations (an open is never issued immediately after another open, which
is the situation a status toggle produces), at most one session of the
seller has `endTime = null`; `prev` is the direction of the operation
preceding the sequence (`none` at the start, when the seller has no open
session). -/
theorem C2_session_invariant (ops : List (Bool × ℤ)) :
    ∀ (db : DB) (userId sid : String) (prev : Option Bool),
      Alternating prev ops →
      (∀ s ∈ db.sellers, s.userId = userId → s.id = sid) →
      countOpen db sid ≤ (if prev = some true then 1 else 0) →
      countOpen (runOps userId db ops) sid ≤ 1 := by
  induction ops with
  | nil =>
    intro db userId sid prev _ _ hcount
    simp only [runOps]
    refine le_trans hcount ?_
    split_ifs <;> omega
  | cons op rest ih =>
    intro db userId sid prev halt hid hcount
    obtain ⟨hne, halt2⟩ := halt
    rcases op with ⟨b, t⟩
    rcases hfind : findSellerByUserId db.sellers userId with _ | seller
    · rw [runOps_no_seller userId ((b, t) :: rest) db hfind]
      refine le_trans hcount ?_
      split_ifs <;> omega
    · have hmem : seller ∈ db.sellers := List.mem_of_find?_eq_some hfind
      have huser : seller.userId = userId := by
        have hp := List.find?_some hfind
        simpa using hp
      have hsid : seller.id = sid := hid seller hmem huser
      obtain ⟨db', hok, hsellers, _, _, hcount'⟩ :=
        setStoreStatus_ok_parts db userId b t seller hfind
      simp only [runOps, hok]
      apply ih db' userId sid (some b) halt2
      · intro s hs hu
        rw [hsellers] at hs
        obtain ⟨s0, hs0, rfl⟩ := List.mem_map.mp hs
        by_cases hc : s0.id = seller.id
        · rw [if_pos hc]
          show s0.id = sid
          rw [hc]
          exact hsid
        · rw [if_neg hc]
          rw [if_neg hc] at hu
          exact hid s0 hs0 hu
      · rw [hsid] at hcount'
        rcases b
        · simp only [Bool.false_eq_true, if_false] at hcount'
          have h1 : countOpen db sid ≤ 1 := le_trans hcount (by split_ifs <;> omega)
          have h2 : (if (some false : Option Bool) = some true then 1 else 0) = 0 := by simp
          rw [h2]
          omega
        · simp only [if_true] at hcount'
          have h0 : countOpen db sid = 0 := by
            rw [if_neg hne] at hcount
            omega
          have h2 : (if (some true : Option Bool) = some true then 1 else 0) = 1 := by simp
          rw [h2]
          omega

/-- Witness for the amended C2 at a concrete alternating run
open-close-open for one seller. -/
theorem C2_session_invariant_witness :
    Alternating none [(true, 10), (false, 20), (true, 30)] ∧
      countOpen (runOps "u1" ⟨[⟨"s1", "u1", false⟩], [], [], 0⟩
        [(true, 10), (false, 20), (true, 30)]) "s1" ≤ 1 :=
  ⟨by simp [Alternating],
    C2_session_invariant [(true, 10), (false, 20), (true, 30)]
      ⟨[⟨"s1", "u1", false⟩], [], [], 0⟩ "u1" "s1" none (by simp [Alternating])
      (by
        intro s hs _
        obtain rfl : s = ⟨"s1", "u1", false⟩ := by simpa using hs
        rfl)
      (by with_unfolding_all decide)⟩

/-- Looking a seller up by user id after persisting the `isOpen` flag. -/
theorem findSellerByUserId_map (sellers : List Seller) (userId i : String) (b : Bool) :
    findSellerByUserId
        (sellers.map (fun s => if s.id = i then { s with isOpen := b } else s)) userId =
      (findSellerByUserId sellers userId).map
        (fun s => if s.id = i then { s with isOpen := b } else s) := by
  unfold findSellerByUserId
  rw [List.find?_map]
  have hp : ((fun s : Seller => decide (s.userId = userId)) ∘ fun s =>
      if s.id = i then { s with isOpen := b } else s) =
      fun s : Seller => decide (s.userId = userId) := by
    funext s
    by_cases h : s.id = i <;> simp [h, Function.comp]
  rw [hp]

/-- C5: closing the storefront sets `endTime := now` on the null-endTime
session of the seller selected by descending `startTime`; when none
exists it is a benign no-op that raises no error and leaves the session
rows unchanged; in both cases the seller is recorded as closed. -/
theorem C5_close_storefront (db : DB) (userId : String) (now : ℤ) (seller : Seller)
    (hfind : findSellerByUserId db.sellers userId = some seller) :
    ∃ db', setStoreStatus db userId false now = .ok db' ∧
      (∀ im, findActive seller.id db.sessions = some im →
        db'.sessions = db.sessions.set im.1 { im.2 with endTime := some now } ∧
        im.2.sellerId = seller.id ∧ im.2.endTime = none ∧
        (∀ t ∈ db.sessions, t.sellerId = seller.id → t.endTime = none →
          t.startTime ≤ im.2.startTime)) ∧
      (findActive seller.id db.sessions = none → db'.sessions = db.sessions) ∧
      findSellerByUserId db'.sellers userId = some { seller with isOpen := false } := by
  obtain ⟨db', hok, hsellers, hsessions, _, _⟩ :=
    setStoreStatus_ok_parts db userId false now seller hfind
  simp only [Bool.false_eq_true, if_false] at hsessions
  refine ⟨db', hok, fun im him => ?_, fun hnone => ?_, ?_⟩
  · obtain ⟨hget, hact, hmax⟩ := findActive_some seller.id db.sessions im.1 im.2 (by rw [him])
    have hact' : im.2.sellerId = seller.id ∧ im.2.endTime = none := by
      simpa [isActiveFor] using hact
    refine ⟨?_, hact'.1, hact'.2, fun t ht h1 h2 => ?_⟩
    · rw [hsessions]
      unfold closeWorkSession
      rw [him]
    · exact hmax t ht (by simp [isActiveFor, h1, h2])
  · rw [hsessions]
    unfold closeWorkSession
    rw [hnone]
  · rw [hsellers, findSellerByUserId_map, hfind]
    simp

/-- Witness for C5: a concrete close with one active session sets its end
time. -/
theorem C5_close_storefront_witness :
    ∃ db', setStoreStatus ⟨[⟨"s1", "u1", true⟩], [⟨0, "s1", 50, none, 0⟩], [], 1⟩
        "u1" false 99 = .ok db' ∧ db'.sessions = [⟨0, "s1", 50, some 99, 0⟩] := by
  obtain ⟨db', hok, hsome, _, _⟩ :=
    C5_close_storefront ⟨[⟨"s1", "u1", true⟩], [⟨0, "s1", 50, none, 0⟩], [], 1⟩ "u1" 99
      ⟨"s1", "u1", true⟩ (by with_unfolding_all rfl)
  refine ⟨db', hok, ?_⟩
  have h := hsome (0, ⟨0, "s1", 50, none, 0⟩) (by with_unfolding_all rfl)
  rw [h.1]
  rfl

/-- Counterexample to C3 as stated: closing the storefront sets the
session end time but does not recompute `totalDistanceKm` — on a session
with two logs and a haversine oracle returning 1 km per hop, the closed
session still carries `totalDistanceKm = 0` even though the route
distance of its logs is 1. -/
theorem C3_counterexample :
    (match setStoreStatus ⟨[⟨"s1", "u1", true⟩], [⟨0, "s1", 0, none, 0⟩],
        [⟨"s1", some 0, 1, ⟨1, 2⟩⟩, ⟨"s1", some 0, 2, ⟨3, 4⟩⟩], 1⟩ "u1" false 1000 with
     | .ok db1 => db1.sessions
     | .error _ => []) = [⟨0, "s1", 0, some 1000, 0⟩] ∧
    pairSum (fun _ _ _ _ => 1)
      (getSessionLocationHistory ⟨[⟨"s1", "u1", true⟩], [⟨0, "s1", 0, some 1000, 0⟩],
        [⟨"s1", some 0, 1, ⟨1, 2⟩⟩, ⟨"s1", some 0, 2, ⟨3, 4⟩⟩], 1⟩ 0) = 1 ∧
    (0 : ℚ) ≠ 1 := by
  refine ⟨by with_unfolding_all rfl, by with_unfolding_all rfl, by norm_num⟩

/-- C3 (amended): clock-out sets the end time of the active session and
leaves `totalDistanceKm` untouched (still its initial 0); recomputation
happens only through the on-demand distance query, which for the
one-accepted-sample scenario returns 0 and changes nothing. -/
theorem C3_close_sets_end_time (hav : Hav) (userId sid : String) (lat lng : ℚ)
    (t1 t2 t3 : ℤ) (n : ℕ) (hvalid : isValidCoordinate lat lng = true) :
    ∃ db1 log db2 db3,
      setStoreStatus ⟨[⟨sid, userId, false⟩], [], [], n⟩ userId true t1 = .ok db1 ∧
      logLocationHistory hav db1 t2 sid lat lng (some n) = (.ok (some log), db2) ∧
      setStoreStatus db2 userId false t3 = .ok db3 ∧
      db3.sessions = [⟨n, sid, t1, some t3, 0⟩] ∧
      calculateSessionDistance hav db3 n = (0, db3) := by
  refine ⟨⟨[⟨sid, userId, true⟩], [⟨n, sid, t1, none, 0⟩], [], n + 1⟩,
    ⟨sid, some n, t2, ⟨lat, lng⟩⟩,
    ⟨[⟨sid, userId, true⟩], [⟨n, sid, t1, none, 0⟩], [⟨sid, some n, t2, ⟨lat, lng⟩⟩], n + 1⟩,
    ⟨[⟨sid, userId, false⟩], [⟨n, sid, t1, some t3, 0⟩],
      [⟨sid, some n, t2, ⟨lat, lng⟩⟩], n + 1⟩, ?_, ?_, ?_, rfl, ?_⟩
  · simp [setStoreStatus, findSellerByUserId, createWorkSession, List.find?]
  · simp [logLocationHistory, hvalid, lastLogFor]
  · simp [setStoreStatus, findSellerByUserId, closeWorkSession, findActive, isActiveFor,
      List.find?]
  · rw [calculateSessionDistance_eq]
    rw [if_pos (by simp [getSessionLocationHistory])]

/-- Witness for the amended C3 at concrete inputs. -/
theorem C3_close_sets_end_time_witness :
    isValidCoordinate 1 2 = true ∧
      ∃ db1 log db2 db3,
        setStoreStatus ⟨[⟨"s1", "u1", false⟩], [], [], 0⟩ "u1" true 10 = .ok db1 ∧
        logLocationHistory (fun _ _ _ _ => 0) db1 20 "s1" 1 2 (some 0) =
          (.ok (some log), db2) ∧
        setStoreStatus db2 "u1" false 30 = .ok db3 ∧
        db3.sessions = [⟨0, "s1", 10, some 30, 0⟩] ∧
        calculateSessionDistance (fun _ _ _ _ => 0) db3 0 = (0, db3) :=
  ⟨by with_unfolding_all rfl,
    C3_close_sets_end_time (fun _ _ _ _ => 0) "u1" "s1" 1 2 10 20 30 0
      (by with_unfolding_all rfl)⟩

/-- JS `Map.get` after `Map.set` of the same key yields the new value. -/
theorem mapGet_mapSet_self (m : List (String × ℕ)) (k : String) (v : ℕ) :
    mapGet (mapSet m k v) k = some v := by
  unfold mapGet mapSet
  by_cases h : m.any (fun p => p.1 = k)
  · rw [if_pos h, List.find?_map]
    have hp : ((fun p : String × ℕ => decide (p.1 = k)) ∘ fun p =>
        if p.1 = k then (k, v) else p) = fun p : String × ℕ => decide (p.1 = k) := by
      funext p
      by_cases hc : p.1 = k <;> simp [hc, Function.comp]
    rw [hp]
    have hsome : (m.find? (fun p : String × ℕ => decide (p.1 = k))).isSome := by
      rw [List.find?_isSome]
      obtain ⟨p, hmem, hp⟩ := List.any_eq_true.mp h
      exact ⟨p, hmem, hp⟩
    obtain ⟨q, hq⟩ := Option.isSome_iff_exists.mp hsome
    have hqk : q.1 = k := by simpa using List.find?_some hq
    rw [hq]
    simp [hqk]
  · rw [if_neg h, List.find?_append]
    have hnone : m.find? (fun p : String × ℕ => decide (p.1 = k)) = none := by
      rw [List.find?_eq_none]
      intro p hmem hp
      exact h (List.any_eq_true.mpr ⟨p, hmem, hp⟩)
    rw [hnone]
    simp

/-- A socket currently mapped to the seller lands in the disconnected set
after the teardown half of a registration. -/
theorem teardownExisting_mem (st : Registry) (sellerId : String) (sock : ℕ)
    (h : mapGet st.connectedSellers sellerId = some sock) :
    sock ∈ (teardownExisting st sellerId).disconnected := by
  unfold teardownExisting
  rw [h]
  simp

/-- C9: registering the same seller twice tears the first channel down
before installing the second (`handleRegister` is definitionally the
install after the teardown), and afterwards the first socket has been
disconnected while only the second remains mapped to the seller. -/
theorem C9_last_registration_wins (st : Registry) (sellerId : String) (c1 c2 : ℕ)
    (hid : sellerId ≠ "") (hdistinct : c1 ≠ c2) :
    ∃ st1 st2,
      handleRegister st sellerId c1 = .ok st1 ∧
      handleRegister st1 sellerId c2 = .ok st2 ∧
      st1 = installChannel (teardownExisting st sellerId) sellerId c1 ∧
      st2 = installChannel (teardownExisting st1 sellerId) sellerId c2 ∧
      mapGet st1.connectedSellers sellerId = some c1 ∧
      c1 ∈ st2.disconnected ∧
      mapGet st2.connectedSellers sellerId = some c2 := by
  have hget1 : mapGet (installChannel (teardownExisting st sellerId) sellerId
      c1).connectedSellers sellerId = some c1 := mapGet_mapSet_self _ sellerId c1
  refine ⟨installChannel (teardownExisting st sellerId) sellerId c1, _,
    by rw [handleRegister, if_neg hid], by rw [handleRegister, if_neg hid], rfl, rfl,
    hget1, ?_, ?_⟩
  · show c1 ∈ (installChannel (teardownExisting (installChannel (teardownExisting st sellerId)
      sellerId c1) sellerId) sellerId c2).disconnected
    exact teardownExisting_mem _ sellerId c1 hget1
  · exact mapGet_mapSet_self _ sellerId c2

/-- Witness for C9 on the empty registry. -/
theorem C9_last_registration_wins_witness :
    ∃ st1 st2,
      handleRegister ⟨[], []⟩ "s1" 1 = .ok st1 ∧
      handleRegister st1 "s1" 2 = .ok st2 ∧
      st1 = installChannel (teardownExisting ⟨[], []⟩ "s1") "s1" 1 ∧
      st2 = installChannel (teardownExisting st1 "s1") "s1" 2 ∧
      mapGet st1.connectedSellers "s1" = some 1 ∧
      1 ∈ st2.disconnected ∧
      mapGet st2.connectedSellers "s1" = some 2 :=
  C9_last_registration_wins ⟨[], []⟩ "s1" 1 2 (by decide) (by decide)

/-- Counterexample to C8 as stated: the text form `POINT(200 20)` decodes
to a point with longitude 200, outside [-180, 180], instead of the
decode-failure value — the range validation exists only on the binary
path. -/
theorem C8_counterexample :
    spatialFrom (.text "POINT(200 20)") =
      some { latitude := some 20, longitude := some 200 } ∧ (180 : ℚ) < 200 :=
  ⟨by with_unfolding_all rfl, by norm_num⟩

/-- C8 (amended): decoding is total by construction and yields the
failure value `none` on every malformed binary input — a buffer shorter
than 25 bytes, a byte-order flag other than `0x01`, and (implicitly, by
the third conjunct) any NaN or out-of-range coordinate: every binary
decode that succeeds is in range.  Unparseable text also yields `none`;
parseable text is returned without range validation (see the
counterexample). -/
theorem C8_decode_failures :
    (∀ bytes : List ℕ, bytes.length < 25 → spatialFrom (.buffer bytes) = none) ∧
    (∀ bytes : List ℕ, 25 ≤ bytes.length → bytes.getD 0 0 ≠ 1 →
      spatialFrom (.buffer bytes) = none) ∧
    (∀ (bytes : List ℕ) (p : WPoint), spatialFrom (.buffer bytes) = some p →
      ∃ lat lng, p = { latitude := some lat, longitude := some lng } ∧
        -180 ≤ lng ∧ lng ≤ 180 ∧ -90 ≤ lat ∧ lat ≤ 90) ∧
    (∀ s : String, wktMatch s = none → spatialFrom (.text s) = none) := by
  refine ⟨fun bytes h => ?_, fun bytes h1 h2 => ?_, fun bytes p h => ?_, fun s h => ?_⟩
  · show parseWKBPoint bytes = none
    unfold parseWKBPoint
    rw [if_pos h]
  · show parseWKBPoint bytes = none
    unfold parseWKBPoint
    rw [if_neg (by omega), if_pos h2]
  · rw [show spatialFrom (.buffer bytes) = parseWKBPoint bytes from rfl] at h
    unfold parseWKBPoint at h
    split_ifs at h
    rcases hlng : decodeF64 (readLE8 bytes 9) with _ | lng <;> rw [hlng] at h <;>
      rcases hlat : decodeF64 (readLE8 bytes 17) with _ | lat <;> rw [hlat] at h
    · simp at h
    · simp at h
    · simp at h
    · dsimp only at h
      split_ifs at h with hrange
      push_neg at hrange
      obtain ⟨h1, h2, h3, h4⟩ := hrange
      exact ⟨lat, lng, by simpa using h.symm, h1, h2, h3, h4⟩
  · show (match wktMatch s with
      | some g => some (WPoint.mk (parseChars g.2) (parseChars g.1))
      | none => none) = none
    rw [h]

/-- Witness for the amended C8: the empty buffer is rejected. -/
theorem C8_decode_failures_witness :
    ([] : List ℕ).length < 25 ∧ spatialFrom (.buffer []) = none :=
  ⟨by decide, C8_decode_failures.1 [] (by decide)⟩

/-- Character classification of a decimal digit character. -/
theorem digitChar_facts (d : ℕ) (h : d < 10) :
    Char.isDigit (digitChar d) = true ∧ isWs (digitChar d) = false ∧
      isClassChar (digitChar d) = true ∧ (digitChar d).toNat - 48 = d ∧
      digitChar d ≠ '-' ∧ digitChar d ≠ '+' := by
  interval_cases d <;> exact ⟨by decide, by decide, by decide, by decide, by decide, by decide⟩

/-- A character of the WKT number class is not whitespace. -/
theorem classChar_not_ws (c : Char) (h : isClassChar c = true) : isWs c = false := by
  rcases hw : isWs c with _ | _
  · rfl
  · exfalso
    have hcs : c = ' ' ∨ c = '\t' ∨ c = '\n' ∨ c = '\r' ∨ c = '\x0b' ∨ c = '\x0c' := by
      simpa [isWs] using hw
    rcases hcs with rfl | rfl | rfl | rfl | rfl | rfl <;> exact absurd h (by decide)

/-- `takeWhile`/`dropWhile` across a boundary: a block where the predicate
holds, then an element where it fails. -/
theorem takeWhile_dropWhile_boundary (p : Char → Bool) :
    ∀ (l : List Char) (x : Char) (r : List Char), (∀ c ∈ l, p c = true) → p x = false →
      (l ++ x :: r).takeWhile p = l ∧ (l ++ x :: r).dropWhile p = x :: r
  | [], x, r, _, hx => by simp [List.takeWhile_cons, List.dropWhile_cons, hx]
  | c :: l, x, r, hl, hx => by
    have hc : p c = true := hl c (by simp)
    have ih := takeWhile_dropWhile_boundary p l x r (fun a ha => hl a (by simp [ha])) hx
    simp [List.takeWhile_cons, List.dropWhile_cons, hc, ih.1, ih.2]

/-- `takeWhile`/`dropWhile` on a list where the predicate always holds. -/
theorem takeWhile_dropWhile_all (p : Char → Bool) :
    ∀ l : List Char, (∀ c ∈ l, p c = true) →
      l.takeWhile p = l ∧ l.dropWhile p = []
  | [], _ => by simp
  | c :: l, hl => by
    have hc : p c = true := hl c (by simp)
    have ih := takeWhile_dropWhile_all p l (fun a ha => hl a (by simp [ha]))
    simp [List.takeWhile_cons, List.dropWhile_cons, hc, ih.1, ih.2]

/-- The integer-part fold over digit characters equals the fold over the
digits. -/
theorem foldl_digitChars (ds : List ℕ) (h : ∀ x ∈ ds, x < 10) :
    ∀ a : ℕ,
      (ds.map digitChar).foldl (fun acc c => 10 * acc + (c.toNat - 48)) a =
        ds.foldl (fun acc x => 10 * acc + x) a := by
  induction ds with
  | nil => intro a; rfl
  | cons x ds ih =>
    intro a
    have hx := (digitChar_facts x (h x (by simp))).2.2.2.1
    simp only [List.map_cons, List.foldl_cons, hx]
    exact ih (fun y hy => h y (by simp [hy])) _

/-- The fraction-part fold over digit characters equals the fold over the
digits. -/
theorem foldr_digitChars (ds : List ℕ) (h : ∀ x ∈ ds, x < 10) :
    (ds.map digitChar).foldr (fun c acc => (((c.toNat - 48 : ℕ) : ℚ) + acc) / 10) (0 : ℚ) =
      ds.foldr (fun (x : ℕ) (acc : ℚ) => ((x : ℚ) + acc) / 10) (0 : ℚ) := by
  induction ds with
  | nil => rfl
  | cons x ds ih =>
    have hx := (digitChar_facts x (h x (by simp))).2.2.2.1
    simp only [List.map_cons, List.foldr_cons, hx, ih (fun y hy => h y (by simp [hy]))]

/-- `parseFloat` recovers the value of a rendered plain-decimal numeral. -/
theorem parseChars_core (sgn : Bool) (ints fracs : List ℕ)
    (h9i : ∀ x ∈ ints, x < 10) (h9f : ∀ x ∈ fracs, x < 10) (hne : ints ≠ []) :
    parseChars (DecNum.renderChars ⟨sgn, ints, fracs⟩) =
      some (DecNum.val ⟨sgn, ints, fracs⟩) := by
  unfold DecNum.renderChars DecNum.val
  dsimp only
  rcases ints with _ | ⟨d0, ds⟩
  · exact absurd rfl hne
  have hd0 := digitChar_facts d0 (h9i d0 (by simp))
  have hints9 : ∀ c ∈ (d0 :: ds).map digitChar, Char.isDigit c = true := by
    intro c hc
    obtain ⟨x, hx, rfl⟩ := List.mem_map.mp hc
    exact (digitChar_facts x (h9i x hx)).1
  cases sgn
  · simp only [Bool.false_eq_true, if_false, List.nil_append]
    cases fracs with
    | nil =>
      unfold parseChars
      dsimp only [List.map_cons]
      rw [List.append_nil]
      rw [List.dropWhile_cons]
      rw [hd0.2.1]
      simp only [Bool.false_eq_true, if_false]
      rw [if_neg hd0.2.2.2.2.1, if_neg hd0.2.2.2.2.2]
      dsimp only
      have hTW := takeWhile_dropWhile_all Char.isDigit (digitChar d0 :: List.map digitChar ds)
          (by simpa using hints9)
      rw [hTW.1, hTW.2]
      dsimp only
      rw [← List.map_cons digitChar d0 ds, foldl_digitChars (d0 :: ds) h9i 0]
      simp
    | cons f fs =>
      unfold parseChars
      dsimp only [List.map_cons]
      simp only [List.cons_append]
      set T := List.map digitChar ds ++ '.' :: digitChar f :: List.map digitChar fs with hT
      have hBd := takeWhile_dropWhile_boundary Char.isDigit (List.map digitChar ds) '.'
          (digitChar f :: List.map digitChar fs)
          (fun c hc => by
            obtain ⟨x, hx, rfl⟩ := List.mem_map.mp hc
            exact (digitChar_facts x (h9i x (by simp [hx]))).1)
          (by decide)
      have e1 : List.dropWhile isWs (digitChar d0 :: T) = digitChar d0 :: T := by
        rw [List.dropWhile_cons, hd0.2.1]
        simp
      have e2 : List.takeWhile Char.isDigit (digitChar d0 :: T) =
          digitChar d0 :: List.map digitChar ds := by
        rw [List.takeWhile_cons, hd0.1, hT, hBd.1]
        simp
      have e3 : List.dropWhile Char.isDigit (digitChar d0 :: T) =
          '.' :: digitChar f :: List.map digitChar fs := by
        rw [List.dropWhile_cons, hd0.1, hT, hBd.2]
        simp
      rw [e1]
      dsimp only
      rw [if_neg hd0.2.2.2.2.1, if_neg hd0.2.2.2.2.2]
      dsimp only
      rw [e2, e3]
      dsimp only [List.tail_cons]
      have hFall := takeWhile_dropWhile_all Char.isDigit (digitChar f :: List.map digitChar fs)
          (fun c hc => by
            rw [← List.map_cons] at hc
            obtain ⟨x, hx, rfl⟩ := List.mem_map.mp hc
            exact (digitChar_facts x (h9f x hx)).1)
      rw [hFall.1]
      rw [← List.map_cons digitChar d0 ds, ← List.map_cons digitChar f fs,
        foldl_digitChars (d0 :: ds) h9i 0, foldr_digitChars (f :: fs) h9f]
      simp
  · simp only [if_true]
    have hwsm : isWs '-' = false := by decide
    cases fracs with
    | nil =>
      unfold parseChars
      dsimp only [List.map_cons]
      simp only [List.cons_append, List.nil_append, List.append_nil]
      have e1 : List.dropWhile isWs ('-' :: digitChar d0 :: List.map digitChar ds) =
          '-' :: digitChar d0 :: List.map digitChar ds := by
        rw [List.dropWhile_cons, hwsm]
        simp
      rw [e1]
      dsimp only
      rw [if_pos rfl]
      dsimp only
      have hTW := takeWhile_dropWhile_all Char.isDigit (digitChar d0 :: List.map digitChar ds)
          (by simpa using hints9)
      rw [hTW.1, hTW.2]
      dsimp only
      rw [← List.map_cons digitChar d0 ds, foldl_digitChars (d0 :: ds) h9i 0]
      simp
    | cons f fs =>
      unfold parseChars
      dsimp only [List.map_cons]
      simp only [List.cons_append, List.nil_append]
      set T := List.map digitChar ds ++ '.' :: digitChar f :: List.map digitChar fs with hT
      have hBd := takeWhile_dropWhile_boundary Char.isDigit (List.map digitChar ds) '.'
          (digitChar f :: List.map digitChar fs)
          (fun c hc => by
            obtain ⟨x, hx, rfl⟩ := List.mem_map.mp hc
            exact (digitChar_facts x (h9i x (by simp [hx]))).1)
          (by decide)
      have e1 : List.dropWhile isWs ('-' :: digitChar d0 :: T) = '-' :: digitChar d0 :: T := by
        rw [List.dropWhile_cons, hwsm]
        simp
      have e2 : List.takeWhile Char.isDigit (digitChar d0 :: T) =
          digitChar d0 :: List.map digitChar ds := by
        rw [List.takeWhile_cons, hd0.1, hT, hBd.1]
        simp
      have e3 : List.dropWhile Char.isDigit (digitChar d0 :: T) =
          '.' :: digitChar f :: List.map digitChar fs := by
        rw [List.dropWhile_cons, hd0.1, hT, hBd.2]
        simp
      rw [e1]
      dsimp only
      rw [if_pos rfl]
      dsimp only
      rw [e2, e3]
      dsimp only [List.tail_cons]
      have hFall := takeWhile_dropWhile_all Char.isDigit (digitChar f :: List.map digitChar fs)
          (fun c hc => by
            rw [← List.map_cons] at hc
            obtain ⟨x, hx, rfl⟩ := List.mem_map.mp hc
            exact (digitChar_facts x (h9f x hx)).1)
      rw [hFall.1]
      rw [← List.map_cons digitChar d0 ds, ← List.map_cons digitChar f fs,
        foldl_digitChars (d0 :: ds) h9i 0, foldr_digitChars (f :: fs) h9f]
      simp


/-- The WKT regex matches the encoded point text at position 0 and
returns the two groups, whenever the groups are nonempty strings over the
regex number class. -/
theorem scanMatch_encoded (g1 g2 : List Char) (h1 : g1 ≠ []) (h2 : g2 ≠ [])
    (hc1 : ∀ c ∈ g1, isClassChar c = true) (hc2 : ∀ c ∈ g2, isClassChar c = true) :
    scanMatch ('P' :: 'O' :: 'I' :: 'N' :: 'T' :: '(' :: (g1 ++ ' ' :: (g2 ++ [')']))) =
      some (g1, g2) := by
  rcases g1 with _ | ⟨a1, t1⟩
  · exact absurd rfl h1
  rcases g2 with _ | ⟨a2, t2⟩
  · exact absurd rfl h2
  have ha1 : isClassChar a1 = true := hc1 a1 (by simp)
  have ha2 : isClassChar a2 = true := hc2 a2 (by simp)
  have hw1 : isWs a1 = false := classChar_not_ws a1 ha1
  have hw2 : isWs a2 = false := classChar_not_ws a2 ha2
  have hwsp : isWs ' ' = true := by decide
  have hwsl : isWs '(' = false := by decide
  have hwsr : isWs ')' = false := by decide
  have hm : matchAt ('P' :: 'O' :: 'I' :: 'N' :: 'T' :: '(' ::
      ((a1 :: t1) ++ ' ' :: ((a2 :: t2) ++ [')']))) = some (a1 :: t1, a2 :: t2) := by
    unfold matchAt
    dsimp only
    rw [if_pos (by decide : ('P'.toLower = 'p' ∧ 'O'.toLower = 'o' ∧ 'I'.toLower = 'i' ∧
      'N'.toLower = 'n' ∧ 'T'.toLower = 't'))]
    have e0 : List.dropWhile isWs ('(' :: ((a1 :: t1) ++ ' ' :: ((a2 :: t2) ++ [')']))) =
        '(' :: ((a1 :: t1) ++ ' ' :: ((a2 :: t2) ++ [')'])) := by
      rw [List.dropWhile_cons, hwsl]
      simp
    rw [e0]
    dsimp only
    rw [if_pos rfl]
    have e1 : List.dropWhile isWs ((a1 :: t1) ++ ' ' :: ((a2 :: t2) ++ [')'])) =
        (a1 :: t1) ++ ' ' :: ((a2 :: t2) ++ [')']) := by
      rw [List.cons_append, List.dropWhile_cons, hw1]
      simp [List.cons_append]
    rw [e1]
    have hB1 := takeWhile_dropWhile_boundary isClassChar (a1 :: t1) ' '
      ((a2 :: t2) ++ [')']) hc1 (by decide)
    rw [hB1.1, hB1.2]
    rw [if_neg (by simp)]
    have ew : List.takeWhile isWs (' ' :: ((a2 :: t2) ++ [')'])) = [' '] := by
      rw [List.takeWhile_cons, hwsp]
      simp only [if_true]
      rw [List.cons_append, List.takeWhile_cons, hw2]
      simp
    have ed : List.dropWhile isWs (' ' :: ((a2 :: t2) ++ [')'])) =
        (a2 :: t2) ++ [')'] := by
      rw [List.dropWhile_cons, hwsp]
      simp only [if_true]
      rw [List.cons_append, List.dropWhile_cons, hw2]
      simp [List.cons_append]
    rw [ew, ed]
    rw [if_neg (by simp)]
    have hB2 := takeWhile_dropWhile_boundary isClassChar (a2 :: t2) ')' [] hc2 (by decide)
    simp only [List.append_nil] at hB2
    rw [hB2.1, hB2.2]
    rw [if_neg (by simp)]
    have er : List.dropWhile isWs [')'] = [')'] := by
      rw [List.dropWhile_cons, hwsr]
      simp
    rw [er]
    dsimp only
    rw [if_pos rfl]
  rw [scanMatch, hm]


/-- `parseFloat` inverts the rendering of a well-formed decimal numeral. -/
theorem parseChars_renderChars (d : DecNum) (hwf : d.WF) :
    parseChars d.renderChars = some d.val := by
  obtain ⟨h9i, h9f, hne⟩ := hwf
  exact parseChars_core d.neg d.intDigits d.fracDigits h9i h9f hne

/-- Every character of a rendered numeral is in the regex number class. -/
theorem renderChars_class (d : DecNum) (h9i : ∀ x ∈ d.intDigits, x < 10)
    (h9f : ∀ x ∈ d.fracDigits, x < 10) :
    ∀ c ∈ d.renderChars, isClassChar c = true := by
  intro c hc
  unfold DecNum.renderChars at hc
  rcases List.mem_append.mp hc with hc1 | hc2
  · rcases List.mem_append.mp hc1 with hs | hi
    · rcases hn : d.neg with _ | _ <;> rw [hn] at hs
      · simp at hs
      · obtain rfl : c = '-' := by simpa using hs
        decide
    · obtain ⟨x, hx, rfl⟩ := List.mem_map.mp hi
      exact (digitChar_facts x (h9i x hx)).2.2.1
  · rcases hf : d.fracDigits with _ | ⟨f, fs⟩ <;> rw [hf] at hc2
    · simp at hc2
    · rcases List.mem_cons.mp hc2 with rfl | hm2
      · decide
      · obtain ⟨x, hx, rfl⟩ := List.mem_map.mp hm2
        refine (digitChar_facts x (h9f x ?_)).2.2.1
        rw [hf]
        exact hx

/-- A numeral with a nonempty integer part renders to nonempty text. -/
theorem renderChars_ne_nil (d : DecNum) (hne : d.intDigits ≠ []) :
    d.renderChars ≠ [] := by
  unfold DecNum.renderChars
  rcases hi : d.intDigits with _ | ⟨x, xs⟩
  · exact absurd hi hne
  · rcases d.neg with _ | _ <;> simp

/-- C7 (amended): the decode-encode round trip restores the point for
every in-range point whose coordinate renderings are plain decimal
numerals (as produced for coordinates that are zero or of magnitude at
least 1e-6); a coordinate rendered in exponent notation falls outside
the regex and decoding fails, see the counterexample. -/
theorem C7_roundtrip (lat lng : ℚ) (dLat dLng : DecNum)
    (_hlat1 : -90 ≤ lat) (_hlat2 : lat ≤ 90) (_hlng1 : -180 ≤ lng) (_hlng2 : lng ≤ 180)
    (hwfLat : dLat.WF) (hwfLng : dLng.WF)
    (hrLat : jsNumToString (some lat) = dLat.renderChars)
    (hrLng : jsNumToString (some lng) = dLng.renderChars)
    (hvLat : dLat.val = lat) (hvLng : dLng.val = lng) :
    decodeEncode { latitude := some lat, longitude := some lng } =
      some { latitude := some lat, longitude := some lng } := by
  have hg1 := renderChars_class dLng hwfLng.1 hwfLng.2.1
  have hg2 := renderChars_class dLat hwfLat.1 hwfLat.2.1
  have hn1 := renderChars_ne_nil dLng hwfLng.2.2
  have hn2 := renderChars_ne_nil dLat hwfLat.2.2
  have hscan := scanMatch_encoded dLng.renderChars dLat.renderChars hn1 hn2 hg1 hg2
  unfold decodeEncode spatialTo
  dsimp only
  rw [hrLat, hrLng]
  have hw : wktMatch ⟨['P', 'O', 'I', 'N', 'T', '('] ++ dLng.renderChars ++ [' '] ++
      dLat.renderChars ++ [')']⟩ = some (dLng.renderChars, dLat.renderChars) := by
    unfold wktMatch
    show scanMatch (['P', 'O', 'I', 'N', 'T', '('] ++ dLng.renderChars ++ [' '] ++
      dLat.renderChars ++ [')']) = _
    have he : ['P', 'O', 'I', 'N', 'T', '('] ++ dLng.renderChars ++ [' '] ++
        dLat.renderChars ++ [')'] =
        'P' :: 'O' :: 'I' :: 'N' :: 'T' :: '(' ::
          (dLng.renderChars ++ ' ' :: (dLat.renderChars ++ [')'])) := by
      simp
    rw [he, hscan]
  unfold spatialFrom
  dsimp only
  rw [hw]
  dsimp only
  rw [parseChars_renderChars dLat hwfLat, parseChars_renderChars dLng hwfLng, hvLat, hvLng]

/-- Counterexample to C7 as stated: the in-range point with latitude
1e-7 (a JS number rendered in exponent notation) encodes to
`POINT(0 1e-7)`, which the decoding regex cannot parse, so the round
trip yields `undefined` instead of the point. -/
theorem C7_counterexample :
    (-90 ≤ (1 / 10000000 : ℚ) ∧ (1 / 10000000 : ℚ) ≤ 90 ∧
      -180 ≤ (0 : ℚ) ∧ (0 : ℚ) ≤ 180) ∧
    spatialTo (some { latitude := some (1 / 10000000), longitude := some 0 }) =
      some "POINT(0 1e-7)" ∧
    decodeEncode { latitude := some (1 / 10000000), longitude := some 0 } = none :=
  ⟨by norm_num, by with_unfolding_all rfl, by with_unfolding_all rfl⟩

/-- Witness for the amended C7 at the concrete point (10.5, -20.25). -/
theorem C7_roundtrip_witness :
    jsNumToString (some (21 / 2)) = DecNum.renderChars ⟨false, [1, 0], [5]⟩ ∧
      decodeEncode { latitude := some (21 / 2), longitude := some (-81 / 4) } =
        some { latitude := some (21 / 2), longitude := some (-81 / 4) } :=
  ⟨by with_unfolding_all rfl,
    C7_roundtrip (21 / 2) (-81 / 4) ⟨false, [1, 0], [5]⟩ ⟨true, [2, 0], [2, 5]⟩
      (by norm_num) (by norm_num) (by norm_num) (by norm_num)
      ⟨by decide, by decide, by decide⟩ ⟨by decide, by decide, by decide⟩
      (by with_unfolding_all rfl) (by with_unfolding_all rfl)
      (by with_unfolding_all rfl) (by with_unfolding_all rfl)⟩
